import Mathlib

/-!
Shallow embedding of `src/spertfiles/parse_tallies.py` (the SPERT tally-output
parser).  Lines of the report are modelled as `List Char`; the open-file state
of the scanning loop is an explicit `ScanState`; Python exceptions
(`NameError`, `IndexError`, `ValueError`) are modelled by `ScanErr`-carrying
`Except` results.  Python `float(...)` followed by `'%.6e' % x` is modelled by
exact decimal parsing (`pyFloat`) and 7-significant-digit scientific
formatting with round-half-even (`formatSci6`); this coincides with the
CPython double-based path on every input whose decimal value is exactly
representable as a double and whose 7-digit decimal rounding is unambiguous,
which covers all concrete inputs evaluated below.
-/

namespace Spert

/-- Character list of a string literal (lines and tokens are `List Char`). -/
def chars (s : String) : List Char := s.data

/-- Boolean test that `p` is a prefix of `l` (character lists). -/
def isPrefixOfB : List Char → List Char → Bool
  | [], _ => true
  | _ :: _, [] => false
  | a :: as, b :: bs => a == b && isPrefixOfB as bs

/-- Boolean test that `sub` occurs contiguously inside `l`; this models the
Python substring operator `sub in l`. -/
def containsSub (sub : List Char) : List Char → Bool
  | [] => sub.isEmpty
  | c :: rest => isPrefixOfB sub (c :: rest) || containsSub sub rest

/-- Whitespace recognizer matching `str.split()`'s ASCII whitespace. -/
def isSpaceB (c : Char) : Bool :=
  c == ' ' || c == '\t' || c == '\n' || c == '\r' || c == '\x0b' || c == '\x0c'

/-- Accumulator-passing worker for `tokenize`. -/
def tokenizeAux : List Char → List Char → List (List Char)
  | [], acc => if acc.isEmpty then [] else [acc.reverse]
  | c :: rest, acc =>
    if isSpaceB c then
      if acc.isEmpty then tokenizeAux rest [] else acc.reverse :: tokenizeAux rest []
    else tokenizeAux rest (c :: acc)

/-- Python `line.split()`: split on runs of whitespace, dropping empty
tokens. -/
def tokenize (l : List Char) : List (List Char) := tokenizeAux l []

/-- Accumulator-passing worker for `splitlinesKeep`. -/
def splitlinesAux : List Char → List Char → List (List Char)
  | [], acc => if acc.isEmpty then [] else [acc.reverse]
  | c :: rest, acc =>
    if c == '\n' then (acc.reverse ++ ['\n']) :: splitlinesAux rest []
    else splitlinesAux rest (c :: acc)

/-- Python `s.splitlines(True)` for `'\n'`-terminated text: split after each
newline, keeping the line ends, with no empty trailing entry. -/
def splitlinesKeep (l : List Char) : List (List Char) := splitlinesAux l []

/-- The 5x5 lattice names (`lat_5x5` in the source). -/
def lat_5x5 : List (List Char) := [chars "l21"]

/-- The 4x4 lattice names (`lat_4x4` in the source). -/
def lat_4x4 : List (List Char) := [chars "l330", chars "l331", chars "l402"]

/-- The quarter-core 4x4 lattice names (`qtr_core_4x4` in the source). -/
def qtr_core_4x4 : List (List Char) := [chars "l6"]

/-- Row letters of the 5x5 lattices (`rows_5x5` in the source). -/
def rows_5x5 : List Char := ['E', 'D', 'C', 'B', 'A']

/-- Row letters of the 4x4 lattices (`rows_4x4` in the source). -/
def rows_4x4 : List Char := ['D', 'C', 'B', 'A']

/-- Decimal digit characters of a natural number, as Python `str(n)`. -/
def natChars (n : Nat) : List Char := Nat.toDigits 10 n

/-- The dictionary key `lat+'('+str(i)+','+str(j)+')'` built in the source. -/
def mkKey (lat : List Char) (i j : Nat) : List Char :=
  lat ++ '(' :: (natChars i ++ ',' :: (natChars j ++ [')']))

/-- The `CoordinateLabelTable` (`dc` in the source), as an association list in
Python-dict insertion order; `coordinate_keys_nodup` below shows the keys are
pairwise distinct, so the list and the dict agree. -/
def dcTable : List (List Char × List Char) :=
  ((List.range rows_5x5.length).flatMap fun i =>
    (List.range 5).flatMap fun j =>
      lat_5x5.map fun lat =>
        (mkKey lat i j, rows_5x5.getD i ' ' :: natChars (j + 1))) ++
  ((List.range rows_4x4.length).flatMap fun i =>
    (List.range 4).flatMap fun j =>
      lat_4x4.map fun lat =>
        (mkKey lat i j, rows_4x4.getD i ' ' :: natChars (j + 1))) ++
  ((List.range rows_4x4.length).flatMap fun i =>
    (List.range 4).flatMap fun j =>
      qtr_core_4x4.map fun lat =>
        (mkKey lat i j, rows_4x4.getD i ' ' :: (natChars (j + 1) ++ ['_'])))

/-- Association-list lookup, the model of a Python dict read `dc[item]`. -/
def lookupTable : List (List Char × List Char) → List Char → Option (List Char)
  | [], _ => none
  | (k, v) :: rest, key => if key = k then some v else lookupTable rest key

/-- The inner loop of the `'Distributed Cell'` branch: for each table entry the
source resets `pc1 = ''` and `pc2 = ''` and, when the key occurs in the line,
stores the label in `pc1` (labels containing `'_'`) or `pc2` (others).  Because
the reset happens on every iteration, only the final entry's iteration
survives; this fold reproduces that behavior exactly. -/
def cellParts (dc : List (List Char × List Char)) (l : List Char) :
    List Char × List Char :=
  dc.foldl
    (fun _ kv =>
      if containsSub kv.1 l then
        if kv.2.contains '_' then (kv.2, []) else ([], kv.2)
      else ([], []))
    ([], [])

/-- The label text written for a `'Distributed Cell'` line: `pc1 + pc2`. -/
def cellLabel (dc : List (List Char × List Char)) (l : List Char) : List Char :=
  (cellParts dc l).1 ++ (cellParts dc l).2

/-- Optional leading sign: returns (is-negative, rest). -/
def parseSign : List Char → Bool × List Char
  | '+' :: r => (false, r)
  | '-' :: r => (true, r)
  | r => (false, r)

/-- Value of a digit-character list read in base 10. -/
def digitsToNat (ds : List Char) : Nat :=
  ds.foldl (fun a c => 10 * a + (c.toNat - 48)) 0

/-- Model of Python `float(tok)` on plain decimal tokens, returning the exact
value as a mantissa/exponent pair `(m, e)` meaning `m * 10 ^ e`; `none` models
the `ValueError` Python raises on a non-numeric token (such as the
plus-slash-minus marker itself).  The
modelled grammar is sign, digits with an optional `'.'`, and an optional
`e`/`E` exponent; the Python extras (surrounding whitespace, underscores,
`inf`, `nan`) never occur in the report tokens of interest.  The one
divergence: `-0.0` is collapsed to `0`, so its sign is not formatted. -/
def pyFloat (l : List Char) : Option (Int × Int) :=
  let s1 := parseSign l
  let p1 := List.span (fun c => c.isDigit) s1.2
  let p2 : List Char × List Char :=
    match p1.2 with
    | '.' :: r => List.span (fun c => c.isDigit) r
    | r => ([], r)
  if p1.1.isEmpty && p2.1.isEmpty then none
  else
    let mant : Int :=
      (if s1.1 then -1 else 1) * (digitsToNat (p1.1 ++ p2.1) : Int)
    let fracLen : Int := (p2.1.length : Int)
    match p2.2 with
    | [] => some (mant, -fracLen)
    | c :: r4 =>
      if c == 'e' || c == 'E' then
        let s2 := parseSign r4
        let pe := List.span (fun c => c.isDigit) s2.2
        if pe.1.isEmpty || !pe.2.isEmpty then none
        else
          let ev : Int := (if s2.1 then -1 else 1) * (digitsToNat pe.1 : Int)
          some (mant, ev - fracLen)
      else none

/-- Number of decimal digits of a positive natural number. -/
def numDigits (n : Nat) : Nat := (Nat.toDigits 10 n).length

/-- Character rendering of a 7-digit mantissa `m7` as `d.dddddd`. -/
def mantissaChars (m7 : Nat) : List Char :=
  match Nat.toDigits 10 m7 with
  | c :: rest => c :: '.' :: rest
  | [] => []

/-- Character rendering of the exponent field `e±XX` (at least two digits). -/
def expChars (x : Int) : List Char :=
  let sgn : Char := if x < 0 then '-' else '+'
  let ds := Nat.toDigits 10 x.natAbs
  'e' :: sgn :: (if x.natAbs < 10 then '0' :: ds else ds)

/-- Model of Python `'%.6e' % v` for the exact value `m * 10 ^ e`: seven
significant digits, rounded half-to-even, in mantissa-exponent form. -/
def formatSci6 (m : Int) (e : Int) : List Char :=
  if m = 0 then chars "0.000000e+00"
  else
    let sgn : List Char := if m < 0 then ['-'] else []
    let n := m.natAbs
    let d := numDigits n
    let me : Nat × Int :=
      if d ≤ 7 then (n * 10 ^ (7 - d), (d : Int) - 1 + e)
      else
        let k := d - 7
        let q := n / 10 ^ k
        let r := n % 10 ^ k
        let q' :=
          if 2 * r > 10 ^ k then q + 1
          else if 2 * r < 10 ^ k then q
          else if q % 2 = 0 then q else q + 1
        if q' = 10 ^ 7 then (10 ^ 6, (d : Int) + e) else (q', (d : Int) - 1 + e)
    sgn ++ mantissaChars me.1 ++ expChars me.2

/-- Python exception kinds the scanning loop can raise: an unbound `fout`
(`NameError`), a missing list index (`IndexError`), and a failed `float`
conversion (`ValueError`). -/
inductive ScanErr where
  | nameErr
  | indexErr
  | valueErr
deriving DecidableEq

/-- State of the scanning loop: the accumulated tally names (`score_all`), the
files written so far (name with the `.out` extension, paired with content, in
creation order), and the name of the currently open output file (`none`
models `fout` not yet bound, i.e. `flag_first_score` still true). -/
structure ScanState where
  score_all : List (List Char)
  files : List (List Char × List Char)
  current : Option (List Char)
deriving DecidableEq

/-- Create-or-truncate a file, the model of `open(k, 'w')`. -/
def setFile : List (List Char × List Char) → List Char → List Char →
    List (List Char × List Char)
  | [], k, v => [(k, v)]
  | (k', v') :: rest, k, v =>
    if k = k' then (k, v) :: rest else (k', v') :: setFile rest k v

/-- Append `v` to the content of file `k`; the key is always present when this
is reached (writes only ever target the file just opened), so the missing-key
case is a no-op. -/
def appendFile : List (List Char × List Char) → List Char → List Char →
    List (List Char × List Char)
  | [], _, _ => []
  | (k', v') :: rest, k, v =>
    if k = k' then (k', v' ++ v) :: rest else (k', v') :: appendFile rest k v

/-- Content of file `k` (empty if absent; reads only target existing files). -/
def getFile : List (List Char × List Char) → List Char → List Char
  | [], _ => []
  | (k', v') :: rest, k => if k = k' then v' else getFile rest k

/-- Model of `fout.write(s)`: a `NameError` when no file was ever opened,
otherwise append to the open file. -/
def writeCur (st : ScanState) (s : List Char) :
    Except (ScanErr × ScanState) ScanState :=
  match st.current with
  | none => .error (.nameErr, st)
  | some k => .ok ⟨st.score_all, appendFile st.files k s, some k⟩

/-- The substring `TALLY` that marks a header line. -/
def tallyKw : List Char := chars "TALLY"

/-- The substring `_2` that marks a continuation header. -/
def sub2 : List Char := chars "_2"

/-- The substring `Distributed Cell` that marks a grid-location line. -/
def distCell : List Char := chars "Distributed Cell"

/-- The plus-slash-minus substring that marks a numeric result line. -/
def pmMark : List Char := chars "+/-"

/-- The token `Flux` that selects the flux column layout. -/
def fluxTok : List Char := chars "Flux"

/-- The output-file extension `.out`. -/
def outExt : List Char := chars ".out"

/-- A line that opens a new tally: it contains `TALLY` and does not contain
`_2` (the source's `'TALLY' in line and '_2' not in line`). -/
def isPrimaryHeader (l : List Char) : Bool :=
  containsSub tallyKw l && !containsSub sub2 l

/-- Header branch of the loop body: on a primary header line, record token 3
of the line (`score[3]`, an `IndexError` when the line has fewer than four
tokens) in `score_all` and open `<name>.out` for writing, making it current;
the close of the previously current file is a no-op on this state. -/
def headerPhase (st : ScanState) (l : List Char) :
    Except (ScanErr × ScanState) ScanState :=
  if isPrimaryHeader l then
    match (tokenize l)[3]? with
    | none => .error (.indexErr, st)
    | some name =>
      .ok ⟨st.score_all ++ [name], setFile st.files (name ++ outExt) [],
           some (name ++ outExt)⟩
  else .ok st

/-- Grid-location branch of the loop body: on a `Distributed Cell` line, write
a newline, the resolved label (`pc1 + pc2`) and a colon-space. -/
def cellPhase (dc : List (List Char × List Char)) (st : ScanState)
    (l : List Char) : Except (ScanErr × ScanState) ScanState :=
  if containsSub distCell l then
    writeCur st ('\n' :: (cellLabel dc l ++ chars ": "))
  else .ok st

/-- Token selection of the result branch: `val[1]` and `val[3]` when the first
token is `Flux`, otherwise `val[2]` and `val[4]`; missing indices are
`IndexError`s.  (On a malformed line Python may interleave its `IndexError`
and `ValueError` differently; both are scan errors here.) -/
def selectMeanStd (val : List (List Char)) :
    Except ScanErr (List Char × List Char) :=
  match val with
  | [] => .error .indexErr
  | t0 :: _ =>
    if t0 = fluxTok then
      match val[1]?, val[3]? with
      | some m, some s => .ok (m, s)
      | _, _ => .error .indexErr
    else
      match val[2]?, val[4]? with
      | some m, some s => .ok (m, s)
      | _, _ => .error .indexErr

/-- Full numeric parse of a result line: split it, select the mean and
standard-deviation tokens, convert each with `float` and format each with
six-decimal scientific notation. -/
def parseResultLine (l : List Char) : Except ScanErr (List Char × List Char) :=
  match selectMeanStd (tokenize l) with
  | .error e => .error e
  | .ok ts =>
    match pyFloat ts.1, pyFloat ts.2 with
    | some m, some s =>
      .ok (formatSci6 m.1 m.2, formatSci6 s.1 s.2)
    | _, _ => .error .valueErr

/-- Result branch of the loop body: on a line containing the plus-slash-minus
marker, parse the numbers and write `<mean>, <std>, `. -/
def resultPhase (st : ScanState) (l : List Char) :
    Except (ScanErr × ScanState) ScanState :=
  if containsSub pmMark l then
    match parseResultLine l with
    | .error e => .error (e, st)
    | .ok ms => writeCur st (ms.1 ++ chars ", " ++ (ms.2 ++ chars ", "))
  else .ok st

/-- One iteration of the scanning loop: the three `if` branches run in
sequence on the same line. -/
def processLine (dc : List (List Char × List Char)) (st : ScanState)
    (l : List Char) : Except (ScanErr × ScanState) ScanState :=
  match headerPhase st l with
  | .error e => .error e
  | .ok st1 =>
    match cellPhase dc st1 l with
    | .error e => .error e
    | .ok st2 => resultPhase st2 l

/-- The scanning pass over the whole report: process each line, stopping at
the first error (which carries the state reached so far); at end-of-input the
final `fout.close()` is a `NameError` exactly when no file was ever opened. -/
def scanList (dc : List (List Char × List Char)) :
    List (List Char) → ScanState → ScanState × Option ScanErr
  | [], st => if st.current.isNone then (st, some .nameErr) else (st, none)
  | l :: rest, st =>
    match processLine dc st l with
    | .ok st' => scanList dc rest st'
    | .error (e, st') => (st', some e)

instance {ε α : Type} [DecidableEq ε] [DecidableEq α] :
    DecidableEq (Except ε α) := fun a b =>
  match a, b with
  | .error e1, .error e2 =>
    if h : e1 = e2 then .isTrue (by rw [h])
    else .isFalse (fun hh => h (by injection hh))
  | .ok a1, .ok a2 =>
    if h : a1 = a2 then .isTrue (by rw [h])
    else .isFalse (fun hh => h (by injection hh))
  | .error _, .ok _ => .isFalse (fun hh => Except.noConfusion hh)
  | .ok _, .error _ => .isFalse (fun hh => Except.noConfusion hh)

/-- Lexicographic comparison of character lists by code point, the order
Python string comparison uses on these ASCII lines. -/
def lineLe : List Char → List Char → Bool
  | [], _ => true
  | _ :: _, [] => false
  | a :: as, b :: bs =>
    if a.toNat < b.toNat then true
    else if b.toNat < a.toNat then false
    else lineLe as bs

/-- Propositional form of `lineLe`, used as the sort order. -/
def strle (a b : List Char) : Prop := lineLe a b = true

instance : DecidableRel strle := fun a b =>
  inferInstanceAs (Decidable (lineLe a b = true))

/-- Totality of the line order. -/
theorem lineLe_total (a b : List Char) :
    lineLe a b = true ∨ lineLe b a = true := by
  induction a generalizing b with
  | nil => left; rfl
  | cons x xs ih =>
    cases b with
    | nil => right; rfl
    | cons y ys =>
      simp only [lineLe]
      rcases Nat.lt_trichotomy x.toNat y.toNat with h | h | h
      · left; simp [h]
      · have h1 : ¬ x.toNat < y.toNat := by omega
        have h2 : ¬ y.toNat < x.toNat := by omega
        simpa [h1, h2] using ih ys
      · right; simp [h]

/-- Transitivity of the line order. -/
theorem lineLe_trans (a : List Char) : ∀ b c, lineLe a b = true →
    lineLe b c = true → lineLe a c = true := by
  induction a with
  | nil => intro b c _ _; rfl
  | cons x xs ih =>
    intro b c hab hbc
    cases b with
    | nil => simp [lineLe] at hab
    | cons y ys =>
      cases c with
      | nil => simp [lineLe] at hbc
      | cons z zs =>
        simp only [lineLe] at hab hbc ⊢
        by_cases hxy : x.toNat < y.toNat
        · by_cases hyz : y.toNat < z.toNat
          · simp [show x.toNat < z.toNat by omega]
          · by_cases hzy : z.toNat < y.toNat
            · simp [hyz, hzy] at hbc
            · simp [show x.toNat < z.toNat by omega]
        · by_cases hyx : y.toNat < x.toNat
          · simp [hxy, hyx] at hab
          · by_cases hyz : y.toNat < z.toNat
            · simp [show x.toNat < z.toNat by omega]
            · by_cases hzy : z.toNat < y.toNat
              · simp [hyz, hzy] at hbc
              · have h1 : ¬ x.toNat < z.toNat := by omega
                have h2 : ¬ z.toNat < x.toNat := by omega
                simp only [hxy, hyx, if_neg, ite_self, if_false] at hab
                simp only [hyz, hzy, if_neg, ite_self, if_false] at hbc
                simp only [h1, h2, if_neg, ite_self, if_false]
                exact ih ys zs hab hbc

instance : IsTotal (List Char) strle := ⟨fun a b => lineLe_total a b⟩

instance : IsTrans (List Char) strle := ⟨fun a b c => lineLe_trans a b c⟩

/-- Model of Python `sorted` on a list of lines: a stable sort by `strle`
(stable sorts by a total order compute the same function, so insertion sort
is a faithful model of Timsort here). -/
def pySorted (ls : List (List Char)) : List (List Char) :=
  List.insertionSort strle ls

/-- First post pass on one file's content: drop the first line
(`data[1:]` — on an empty file this is the empty slice, not an error) and
append a trailing newline. -/
def stripPass (content : List Char) : List Char :=
  (splitlinesKeep content).tail.flatten ++ ['\n']

/-- Second post pass on one file's content: rewrite it with its lines sorted
ascending. -/
def sortPass (content : List Char) : List Char :=
  (pySorted (splitlinesKeep content)).flatten

/-- Both post passes, each run over every registered tally name in turn, just
as the source runs two separate `for score in score_all` loops. -/
def postAll (scores : List (List Char))
    (files : List (List Char × List Char)) : List (List Char × List Char) :=
  let files1 := scores.foldl
    (fun fs s => setFile fs (s ++ outExt) (stripPass (getFile fs (s ++ outExt))))
    files
  scores.foldl
    (fun fs s => setFile fs (s ++ outExt) (sortPass (getFile fs (s ++ outExt))))
    files1

/-- The whole of `main` on a report given as a list of lines: scan, then (when
the scan finished without an exception) run the two post passes; the result is
the files on disk and the uncaught exception, if any.  (Python's line iterator
leaves a trailing newline on each line; every per-line operation used — the
substring tests, `split`, the dict-key scan — is insensitive to it, so lines
are passed here without it.) -/
def runMain (lines : List (List Char)) :
    List (List Char × List Char) × Option ScanErr :=
  let r := scanList dcTable lines ⟨[], [], none⟩
  match r.2 with
  | some e => (r.1.files, some e)
  | none => (postAll r.1.score_all r.1.files, none)

/-- Appending to a file changes no file name. -/
theorem appendFile_map_fst (fs : List (List Char × List Char))
    (k v : List Char) : (appendFile fs k v).map Prod.fst = fs.map Prod.fst := by
  induction fs with
  | nil => rfl
  | cons p rest ih =>
    cases p with
    | mk k' v' =>
      by_cases h : k = k'
      · simp [appendFile, h]
      · simp [appendFile, h, ih]

/-- A successful write leaves the registered tallies, the current file and the
set of file names unchanged. -/
theorem writeCur_ok (st : ScanState) (s : List Char) (st' : ScanState)
    (h : writeCur st s = .ok st') :
    st'.score_all = st.score_all ∧ st'.current = st.current ∧
      st'.files.map Prod.fst = st.files.map Prod.fst := by
  cases hc : st.current with
  | none => rw [writeCur, hc] at h; cases h
  | some k =>
    rw [writeCur, hc] at h
    cases h
    exact ⟨rfl, rfl, appendFile_map_fst st.files k s⟩

/-- The grid-location branch leaves the registered tallies, the current file
and the set of file names unchanged whenever it succeeds. -/
theorem cellPhase_ok (dc : List (List Char × List Char)) (st : ScanState)
    (l : List Char) (st' : ScanState) (h : cellPhase dc st l = .ok st') :
    st'.score_all = st.score_all ∧ st'.current = st.current ∧
      st'.files.map Prod.fst = st.files.map Prod.fst := by
  rw [cellPhase] at h
  by_cases hg : containsSub distCell l = true
  · rw [if_pos hg] at h
    exact writeCur_ok st _ st' h
  · rw [if_neg hg] at h
    cases h
    exact ⟨rfl, rfl, rfl⟩

/-- The result branch leaves the registered tallies, the current file and the
set of file names unchanged whenever it succeeds. -/
theorem resultPhase_ok (st : ScanState) (l : List Char) (st' : ScanState)
    (h : resultPhase st l = .ok st') :
    st'.score_all = st.score_all ∧ st'.current = st.current ∧
      st'.files.map Prod.fst = st.files.map Prod.fst := by
  rw [resultPhase] at h
  by_cases hg : containsSub pmMark l = true
  · rw [if_pos hg] at h
    cases hp : parseResultLine l with
    | error e => rw [hp] at h; cases h
    | ok ms =>
      rw [hp] at h
      exact writeCur_ok st _ st' h
  · rw [if_neg hg] at h
    cases h
    exact ⟨rfl, rfl, rfl⟩

/-- On a line that is not a primary header, the header branch is skipped. -/
theorem headerPhase_skip (st : ScanState) (l : List Char)
    (h : isPrimaryHeader l = false) : headerPhase st l = .ok st := by
  rw [headerPhase, h]
  rfl

/-- On a line processed before any file was opened, and which is not a primary
header, the loop body either leaves the state untouched or raises, with the
state untouched at that point. -/
theorem processLine_no_file (dc : List (List Char × List Char))
    (st : ScanState) (l : List Char) (hp : isPrimaryHeader l = false)
    (hc : st.current = none) :
    processLine dc st l = .ok st ∨
      ∃ e, processLine dc st l = .error (e, st) := by
  rw [processLine, headerPhase_skip st l hp]
  dsimp only
  by_cases hg : containsSub distCell l = true
  · right
    refine ⟨.nameErr, ?_⟩
    rw [cellPhase, if_pos hg, writeCur, hc]
  · rw [cellPhase, if_neg hg]
    dsimp only
    by_cases hm : containsSub pmMark l = true
    · rw [resultPhase, if_pos hm]
      cases hr : parseResultLine l with
      | error e =>
        right
        exact ⟨e, rfl⟩
      | ok ms =>
        right
        refine ⟨.nameErr, ?_⟩
        dsimp only
        rw [writeCur, hc]
    · left
      rw [resultPhase, if_neg hm]

/-- A report with no primary header keeps the scan in its initial no-file
state and always ends in an uncaught error. -/
theorem scanList_no_file (dc : List (List Char × List Char))
    (lines : List (List Char)) (st : ScanState) (hc : st.current = none)
    (h : ∀ l ∈ lines, isPrimaryHeader l = false) :
    ∃ e, scanList dc lines st = (st, some e) := by
  induction lines with
  | nil =>
    refine ⟨.nameErr, ?_⟩
    rw [scanList, hc]
    rfl
  | cons l rest ih =>
    have hl : isPrimaryHeader l = false := h l (List.mem_cons_self l rest)
    rcases processLine_no_file dc st l hl hc with hok | ⟨e, herr⟩
    · obtain ⟨e, he⟩ := ih (fun x hx => h x (List.mem_cons_of_mem l hx))
      refine ⟨e, ?_⟩
      rw [scanList, hok]
      exact he
    · refine ⟨e, ?_⟩
      rw [scanList, herr]

/-- C1: the claim says a Distributed Cell line containing exactly one table
key always gets that key's label captured, regardless of the key's position in
the iteration order.  The code resets the label accumulators at the top of
every iteration of the key loop, so only a match at the very last key
survives: for the line containing exactly the key l21(0,0), whose label in the
table is E1, the captured label is empty. -/
theorem distributed_cell_label_lost :
    lookupTable dcTable (chars "l21(0,0)") = some (chars "E1") ∧
      cellLabel dcTable (chars "Distributed Cell l21(0,0)") = [] := by
  decide

/-- C2: the claim says a synthetic report with N distinct (quantity, label)
pairs yields, per quantity, N sorted lines of the form
label-colon-mean-comma-std-comma.  On a two-pair report for quantity q1 with
labels E1 and E2 the code instead emits both lines with an empty label (the
same key-loop reset bug as C1), so the emitted lines do not carry the labels
the claim requires. -/
theorem round_trip_labels_missing :
    runMain [chars "TALLY 1 2 q1", chars "Distributed Cell l21(0,0)",
        chars "Rate +/- 1.0 2.0 3.0", chars "Distributed Cell l21(0,1)",
        chars "Rate +/- 4.0 5.0 6.0"] =
      ([(chars "q1.out",
          chars ": 1.000000e+00, 3.000000e+00, \n: 4.000000e+00, 6.000000e+00, \n")],
        none) ∧
      lookupTable dcTable (chars "l21(0,1)") = some (chars "E2") := by
  decide

/-- C3: on a result line, the mean is the 2nd and the standard deviation the
4th whitespace-separated token (1-indexed) when the first token is Flux, and
the 3rd and 5th otherwise. -/
theorem result_token_selection (l t0 t1 t2 t3 t4 : List Char)
    (rest : List (List Char)) (hpm : containsSub pmMark l = true)
    (htok : tokenize l = t0 :: t1 :: t2 :: t3 :: t4 :: rest) :
    selectMeanStd (tokenize l) =
      if t0 = fluxTok then Except.ok (t1, t3) else Except.ok (t2, t4) := by
  rw [htok]
  by_cases h : t0 = fluxTok
  · simp [selectMeanStd, h]
  · simp [selectMeanStd, h]

/-- Witness for C3 on a concrete non-Flux result line. -/
theorem result_token_selection_witness :
    selectMeanStd (tokenize (chars "Rate +/- 1.0 2.0 3.0")) =
      Except.ok (chars "1.0", chars "3.0") := by
  have h := result_token_selection (chars "Rate +/- 1.0 2.0 3.0")
    (chars "Rate") (chars "+/-") (chars "1.0") (chars "2.0") (chars "3.0") []
    (by decide) (by decide)
  rw [h]
  decide

/-- C4: a header line containing TALLY and the continuation marker opens no
new output file, registers no new quantity, and leaves the current output
file (the most recently opened primary tally's) in place, so any records of
the continuation block are appended to it. -/
theorem continuation_header_no_new_file (st : ScanState) (l : List Char)
    (st' : ScanState) (h1 : containsSub tallyKw l = true)
    (h2 : containsSub sub2 l = true)
    (hrun : processLine dcTable st l = Except.ok st') :
    st'.score_all = st.score_all ∧ st'.current = st.current ∧
      st'.files.map Prod.fst = st.files.map Prod.fst := by
  have hp : isPrimaryHeader l = false := by
    rw [isPrimaryHeader, h1, h2]
    rfl
  rw [processLine, headerPhase_skip st l hp] at hrun
  dsimp only at hrun
  cases hcp : cellPhase dcTable st l with
  | error e => rw [hcp] at hrun; cases hrun
  | ok st2 =>
    rw [hcp] at hrun
    dsimp only at hrun
    obtain ⟨a1, a2, a3⟩ := cellPhase_ok dcTable st l st2 hcp
    obtain ⟨b1, b2, b3⟩ := resultPhase_ok st2 l st' hrun
    exact ⟨by rw [b1, a1], by rw [b2, a2], by rw [b3, a3]⟩

/-- Witness for C4 on a concrete continuation header processed in a state
with one open tally file. -/
theorem continuation_header_no_new_file_witness :
    (ScanState.mk [chars "q1"] [(chars "q1.out", chars "x")]
        (some (chars "q1.out"))).score_all =
      (ScanState.mk [chars "q1"] [(chars "q1.out", chars "x")]
        (some (chars "q1.out"))).score_all ∧
    (ScanState.mk [chars "q1"] [(chars "q1.out", chars "x")]
        (some (chars "q1.out"))).current =
      (ScanState.mk [chars "q1"] [(chars "q1.out", chars "x")]
        (some (chars "q1.out"))).current ∧
    ((ScanState.mk [chars "q1"] [(chars "q1.out", chars "x")]
        (some (chars "q1.out"))).files.map Prod.fst =
      (ScanState.mk [chars "q1"] [(chars "q1.out", chars "x")]
        (some (chars "q1.out"))).files.map Prod.fst) :=
  continuation_header_no_new_file
    (ScanState.mk [chars "q1"] [(chars "q1.out", chars "x")]
      (some (chars "q1.out")))
    (chars "TALLY 1 2 q1_2")
    (ScanState.mk [chars "q1"] [(chars "q1.out", chars "x")]
      (some (chars "q1.out")))
    (by decide) (by decide) (by decide)

/-- C5 counterexample: the claim's concrete line has the plus-slash-minus
marker as its 2nd token, so the code's float conversion of that token raises
a ValueError instead of capturing a mean of 5.000000e+00. -/
theorem flux_line_raises :
    parseResultLine (chars "Flux +/- 5.0 +/- 6.0") =
      Except.error ScanErr.valueErr := by
  decide

/-- C5 amended: on a Flux result line whose 2nd and 4th tokens are 5.0 and
6.0, the captured mean and standard deviation are 5.000000e+00 and
6.000000e+00. -/
theorem flux_line_mean_std_captured :
    parseResultLine (chars "Flux 5.0 +/- 6.0") =
      Except.ok (chars "5.000000e+00", chars "6.000000e+00") := by
  decide

/-- C6 counterexample: for the quarter-core coordinate l6(3,3) the written
label is A4 followed by the underscore — the underscore is rendered after the
row letter and column digit, not before them as the claim states. -/
theorem qtr_core_underscore_rendered_after :
    cellLabel dcTable (chars "Distributed Cell l6(3,3)") = chars "A4_" ∧
      chars "A4_" ≠ chars "_A4" := by
  decide

/-- C6 amended: every quarter-core (lattice l6) table entry — there are 16 —
carries a label marked with an underscore, and the underscore is attached
after the row-letter and column-digit characters, as the concrete rendering
of l6(3,3) shows. -/
theorem qtr_core_underscore_is_suffix :
    (dcTable.filter (fun p => isPrefixOfB (chars "l6") p.1)).length = 16 ∧
      (dcTable.filter (fun p => isPrefixOfB (chars "l6") p.1)).all
        (fun p => p.2.getLast? == some '_') = true ∧
      cellLabel dcTable (chars "Distributed Cell l6(3,3)") = chars "A4_" := by
  decide

/-- C7 counterexample: a report registering a tally that captures no records
runs to completion with no error — the first-line strip of the empty quantity
file is the empty slice, not a failure — leaving the file holding one blank
line. -/
theorem empty_quantity_file_no_error :
    runMain [chars "TALLY 1 2 q1"] = ([(chars "q1.out", ['\n'])], none) := by
  decide

/-- C7 amended: the post-pass first-line-strip step does not fail on an empty
quantity file; it strips nothing and appends the trailing blank line, and the
sort pass then leaves that single blank line unchanged. -/
theorem strip_empty_yields_blank_line :
    stripPass [] = ['\n'] ∧ sortPass ['\n'] = ['\n'] := by
  decide

/-- C8: the sort pass is deterministic (it is a function of the lines) and
idempotent — sorting an already-sorted list of output lines yields the
identical list. -/
theorem sort_pass_idempotent (ls : List (List Char)) :
    pySorted (pySorted ls) = pySorted ls :=
  List.Sorted.insertionSort_eq (List.sorted_insertionSort strle ls)

/-- C9: the coordinate-label table, built once before the scan as the constant
dcTable, has pairwise-distinct keys, so any enumerated coordinate resolves to
at most one label. -/
theorem coordinate_keys_nodup : (dcTable.map Prod.fst).Nodup := by
  decide

/-- C10: a report with no primary tally header line — the empty report
included — leaves the output stream unbound, so the run raises an uncaught
error and creates no tally output files. -/
theorem no_header_report_errors (lines : List (List Char))
    (h : ∀ l ∈ lines, isPrimaryHeader l = false) :
    (runMain lines).1 = [] ∧ (runMain lines).2.isSome = true := by
  obtain ⟨e, he⟩ := scanList_no_file dcTable lines ⟨[], [], none⟩ rfl h
  simp [runMain, he]

/-- Witness for C10 on the completely empty report. -/
theorem no_header_report_errors_witness :
    (runMain []).1 = [] ∧ (runMain []).2.isSome = true :=
  no_header_report_errors [] (by simp)

end Spert
